import Mathlib

set_option maxRecDepth 8000

/-!
Shallow embedding of the wkv Windows-key validation library.

Strings are modelled as lists of byte values (`List Nat`); `validate`,
`validate_windows95` and `mod7` mirror the Rust source in `src/lib.rs`.
Rust `&str` values are always valid UTF-8, so claims quantifying over
"inputs" are stated over byte lists satisfying `utf8Valid` where the
UTF-8 structure matters.
-/

/-- Error enumeration of the library (`WKVError` in the source). -/
inductive WKVError where
  | TooShort
  | TooLong
  | BadMod7
  | ExpectedDigit
  | InvalidDigitPosition
  | BadAccess
deriving DecidableEq, Repr

/-- The Windows releases wkv knows about (`KeyType` in the source). -/
inductive KeyType where
  | Windows95
  | Windows95OEM
  | Windows98
  | Unknown
deriving DecidableEq, Repr

/-- A validated key (`Key` in the source). -/
structure Key where
  release : KeyType
deriving DecidableEq, Repr

instance {e a : Type} [DecidableEq e] [DecidableEq a] : DecidableEq (Except e a) :=
  fun x y =>
  match x, y with
  | .ok u, .ok v =>
    if h : u = v then .isTrue (by rw [h]) else .isFalse (fun hc => h (Except.ok.inj hc))
  | .error u, .error v =>
    if h : u = v then .isTrue (by rw [h]) else .isFalse (fun hc => h (Except.error.inj hc))
  | .ok _, .error _ => .isFalse (fun hc => Except.noConfusion hc)
  | .error _, .ok _ => .isFalse (fun hc => Except.noConfusion hc)

/-- Is this byte a UTF-8 continuation byte (`0x80..=0xBF`)?  In Rust terms,
a byte `b` with `(b as i8) < -0x40`. -/
def isCont (b : Nat) : Bool := 128 ≤ b && b ≤ 191

/-- Rust `str::is_char_boundary`, at the byte level. -/
def isCharBoundary (s : List Nat) (i : Nat) : Bool :=
  if i = 0 then true
  else
    match s[i]? with
    | none => i == s.length
    | some b => !(isCont b)

/-- Rust `str::get(i..j)`: the byte range `i..j`, guarded by the
char-boundary checks that `str` slicing performs. -/
def strGet (s : List Nat) (i j : Nat) : Option (List Nat) :=
  if i ≤ j ∧ isCharBoundary s i = true ∧ isCharBoundary s j = true then
    some ((s.take j).drop i)
  else none

/-- Rust `slice::get(i..)` on the underlying byte slice. -/
def bytesFrom (s : List Nat) (i : Nat) : Option (List Nat) :=
  if i ≤ s.length then some (s.drop i) else none

/-- Rust `(b as char).to_digit(10)`. -/
def toDigit (b : Nat) : Option Nat :=
  if 48 ≤ b ∧ b ≤ 57 then some (b - 48) else none

/-- The `try_fold` loop inside `mod7`: sum the digit values left to right in
the `u32` accumulator, so each addition wraps modulo `2^32`, failing on the
first non-digit byte. -/
def tryFoldDigits : Nat → List Nat → Except WKVError Nat
  | a, [] => .ok a
  | a, x :: rest =>
    match toDigit x with
    | some d => tryFoldDigits ((a + d) % 2 ^ 32) rest
    | none => .error .ExpectedDigit

/-- `mod7` from the source: digit-sum-mod-7 check over a byte sequence. -/
def mod7 (key : List Nat) : Except WKVError Bool :=
  match tryFoldDigits 0 key with
  | .error e => .error e
  | .ok s => .ok (s % 7 == 0)

/-- The seven forbidden prefixes of `validate_windows95`, as byte triples
(`"333"` through `"999"`). -/
def forbiddenTriples : List (List Nat) :=
  [[51, 51, 51], [52, 52, 52], [53, 53, 53], [54, 54, 54],
   [55, 55, 55], [56, 56, 56], [57, 57, 57]]

/-- The tail of `validate_windows95`: turn the `mod7` outcome into the final
result (`Ok` on `true`, `BadMod7` on `false`, propagate errors). -/
def mod7Verdict (l : List Nat) : Except WKVError Key :=
  match mod7 l with
  | .error e => .error e
  | .ok true => .ok ⟨KeyType.Windows95⟩
  | .ok false => .error .BadMod7

/-- `validate_windows95` from the source. -/
def validate_windows95 (key : List Nat) : Except WKVError Key :=
  match strGet key 0 3 with
  | none => .error .BadAccess
  | some p =>
    if p ∈ forbiddenTriples then .error .InvalidDigitPosition
    else
      match bytesFrom key 4 with
      | none => .error .BadAccess
      | some tail => mod7Verdict tail

/-- `validate` from the source: dispatch on the byte length of the input. -/
def validate (key : List Nat) : Except WKVError Key :=
  if key.length ≤ 10 then .error .TooShort
  else if key.length = 11 then validate_windows95 key
  else .error .TooLong

/-- Number of characters of a UTF-8 string presented as its byte list
(Rust `str::chars().count()`): the number of non-continuation bytes. -/
def charCount (s : List Nat) : Nat := (s.filter (fun b => !(isCont b))).length

mutual

/-- UTF-8 well-formedness of a byte list (RFC 3629): exactly the byte lists
that underlie a Rust `&str`.  The bounds passed to the helpers encode the
restricted first-continuation ranges of the `E0`, `ED`, `F0` and `F4` leads. -/
def utf8Valid : List Nat → Bool
  | [] => true
  | b :: r =>
    if b ≤ 127 then utf8Valid r
    else if b < 194 then false
    else if b ≤ 223 then utf8Cont1 r
    else if b ≤ 239 then utf8Cont2 b r
    else if b ≤ 244 then utf8Cont3 b r
    else false

/-- One continuation byte, then a valid rest. -/
def utf8Cont1 : List Nat → Bool
  | c :: r => isCont c && utf8Valid r
  | [] => false

/-- For a 3-byte lead `b`: a first continuation byte in the range that `b`
allows, one more continuation byte, then a valid rest. -/
def utf8Cont2 (b : Nat) : List Nat → Bool
  | c1 :: c2 :: r =>
    ((if b = 224 then 160 else 128) ≤ c1 && c1 ≤ (if b = 237 then 159 else 191))
      && isCont c2 && utf8Valid r
  | _ => false

/-- For a 4-byte lead `b`: a first continuation byte in the range that `b`
allows, two more continuation bytes, then a valid rest. -/
def utf8Cont3 (b : Nat) : List Nat → Bool
  | c1 :: c2 :: c3 :: r =>
    ((if b = 240 then 144 else 128) ≤ c1 && c1 ≤ (if b = 244 then 143 else 191))
      && isCont c2 && isCont c3 && utf8Valid r
  | _ => false

end

theorem isCont_eq_false_left {b : Nat} (hb : b ≤ 127) : isCont b = false := by
  simp only [isCont, Bool.and_eq_false_iff, decide_eq_false_iff_not]
  omega

theorem isCont_eq_false_right {b : Nat} (hb : 192 ≤ b) : isCont b = false := by
  simp only [isCont, Bool.and_eq_false_iff, decide_eq_false_iff_not]
  omega

theorem isCont_eq_true {b : Nat} (h1 : 128 ≤ b) (h2 : b ≤ 191) : isCont b = true := by
  simp only [isCont, Bool.and_eq_true, decide_eq_true_eq]
  omega

/-- The first byte of a valid UTF-8 sequence falls in one of the four lead
ranges. -/
theorem utf8_head_class {b : Nat} {r : List Nat} (h : utf8Valid (b :: r) = true) :
    b ≤ 127 ∨ (194 ≤ b ∧ b ≤ 223) ∨ (224 ≤ b ∧ b ≤ 239) ∨ (240 ≤ b ∧ b ≤ 244) := by
  rw [utf8Valid.eq_2] at h
  split_ifs at h <;> omega

/-- A valid UTF-8 sequence never starts with a continuation byte. -/
theorem utf8_head_not_cont {b : Nat} {r : List Nat} (h : utf8Valid (b :: r) = true) :
    isCont b = false := by
  rcases utf8_head_class h with h1 | h1 | h1 | h1
  · exact isCont_eq_false_left h1
  · exact isCont_eq_false_right (by omega)
  · exact isCont_eq_false_right (by omega)
  · exact isCont_eq_false_right (by omega)

theorem utf8_ascii_tail {b : Nat} {r : List Nat} (h : utf8Valid (b :: r) = true)
    (hb : b ≤ 127) : utf8Valid r = true := by
  rw [utf8Valid.eq_2, if_pos hb] at h
  exact h

theorem isCont_of_range {lo hi c : Nat} (hlo : 128 ≤ lo) (hhi : hi ≤ 191)
    (h1 : lo ≤ c) (h2 : c ≤ hi) : isCont c = true :=
  isCont_eq_true (by omega) (by omega)

theorem utf8_two_byte {b c : Nat} {r : List Nat}
    (h : utf8Valid (b :: c :: r) = true) (hb1 : 194 ≤ b) (hb2 : b ≤ 223) :
    isCont c = true ∧ utf8Valid r = true := by
  rw [utf8Valid.eq_2, if_neg (by omega : ¬ b ≤ 127), if_neg (by omega : ¬ b < 194),
    if_pos hb2, utf8Cont1.eq_1, Bool.and_eq_true] at h
  exact h

theorem utf8_three_byte {b c1 c2 : Nat} {r : List Nat}
    (h : utf8Valid (b :: c1 :: c2 :: r) = true) (hb1 : 224 ≤ b) (hb2 : b ≤ 239) :
    isCont c1 = true ∧ isCont c2 = true ∧ utf8Valid r = true := by
  rw [utf8Valid.eq_2, if_neg (by omega : ¬ b ≤ 127), if_neg (by omega : ¬ b < 194),
    if_neg (by omega : ¬ b ≤ 223), if_pos hb2, utf8Cont2.eq_1] at h
  simp only [Bool.and_eq_true, decide_eq_true_eq] at h
  exact ⟨isCont_of_range (by split_ifs <;> omega) (by split_ifs <;> omega)
    h.1.1.1 h.1.1.2, h.1.2, h.2⟩

theorem utf8_four_byte {b c1 c2 c3 : Nat} {r : List Nat}
    (h : utf8Valid (b :: c1 :: c2 :: c3 :: r) = true) (hb1 : 240 ≤ b) (hb2 : b ≤ 244) :
    isCont c1 = true ∧ isCont c2 = true ∧ isCont c3 = true ∧ utf8Valid r = true := by
  rw [utf8Valid.eq_2, if_neg (by omega : ¬ b ≤ 127), if_neg (by omega : ¬ b < 194),
    if_neg (by omega : ¬ b ≤ 223), if_neg (by omega : ¬ b ≤ 239), if_pos hb2,
    utf8Cont3.eq_1] at h
  simp only [Bool.and_eq_true, decide_eq_true_eq] at h
  exact ⟨isCont_of_range (by split_ifs <;> omega) (by split_ifs <;> omega)
    h.1.1.1.1 h.1.1.1.2, h.1.1.2, h.1.2, h.2⟩

theorem utf8_three_short {b c1 : Nat} (h : utf8Valid [b, c1] = true)
    (hb1 : 224 ≤ b) (hb2 : b ≤ 239) : False := by
  rw [utf8Valid.eq_2, if_neg (by omega : ¬ b ≤ 127), if_neg (by omega : ¬ b < 194),
    if_neg (by omega : ¬ b ≤ 223), if_pos hb2,
    utf8Cont2.eq_2 b [c1] (by intro x y z hxy; simp at hxy)] at h
  exact absurd h (by simp)

theorem utf8_four_short2 {b c1 : Nat} (h : utf8Valid [b, c1] = true)
    (hb1 : 240 ≤ b) (hb2 : b ≤ 244) : False := by
  rw [utf8Valid.eq_2, if_neg (by omega : ¬ b ≤ 127), if_neg (by omega : ¬ b < 194),
    if_neg (by omega : ¬ b ≤ 223), if_neg (by omega : ¬ b ≤ 239), if_pos hb2,
    utf8Cont3.eq_2 b [c1] (by intro x y z w hxy; simp at hxy)] at h
  exact absurd h (by simp)

theorem utf8_four_short3 {b c1 c2 : Nat} (h : utf8Valid [b, c1, c2] = true)
    (hb1 : 240 ≤ b) (hb2 : b ≤ 244) : False := by
  rw [utf8Valid.eq_2, if_neg (by omega : ¬ b ≤ 127), if_neg (by omega : ¬ b < 194),
    if_neg (by omega : ¬ b ≤ 223), if_neg (by omega : ¬ b ≤ 239), if_pos hb2,
    utf8Cont3.eq_2 b [c1, c2] (by intro x y z w hxy; simp at hxy)] at h
  exact absurd h (by simp)

/-- In a valid UTF-8 sequence, a byte following a non-ASCII lead byte is a
continuation byte. -/
theorem utf8_second_cont {b c : Nat} {r : List Nat}
    (h : utf8Valid (b :: c :: r) = true) (hb : 194 ≤ b) : isCont c = true := by
  rcases utf8_head_class h with h1 | h1 | h1 | h1
  · omega
  · exact (utf8_two_byte h h1.1 h1.2).1
  · rcases r with _ | ⟨c2, r2⟩
    · exact absurd h (fun hc => utf8_three_short hc h1.1 h1.2)
    · exact (utf8_three_byte h h1.1 h1.2).1
  · rcases r with _ | ⟨c2, _ | ⟨c3, r3⟩⟩
    · exact absurd h (fun hc => utf8_four_short2 hc h1.1 h1.2)
    · exact absurd h (fun hc => utf8_four_short3 hc h1.1 h1.2)
    · exact (utf8_four_byte h h1.1 h1.2).1

/-- In a valid UTF-8 sequence led by a 3- or 4-byte lead, the third byte is a
continuation byte. -/
theorem utf8_third_cont {b c1 c2 : Nat} {r : List Nat}
    (h : utf8Valid (b :: c1 :: c2 :: r) = true) (hb : 224 ≤ b) : isCont c2 = true := by
  rcases utf8_head_class h with h1 | h1 | h1 | h1
  · omega
  · omega
  · exact (utf8_three_byte h h1.1 h1.2).2.1
  · rcases r with _ | ⟨c3, r3⟩
    · exact absurd h (fun hc => utf8_four_short3 hc h1.1 h1.2)
    · exact (utf8_four_byte h h1.1 h1.2).2.1

/-- Whether the byte one position past a fixed two-byte prefix is a
continuation byte is determined by that prefix. -/
theorem utf8_cont_at1 {b2 b3 b3' : Nat} {r r' : List Nat}
    (hs : utf8Valid (b2 :: b3 :: r) = true)
    (ht : utf8Valid (b2 :: b3' :: r') = true) :
    isCont b3 = isCont b3' := by
  rcases utf8_head_class hs with h1 | h1 | h1 | h1
  · rw [utf8_head_not_cont (utf8_ascii_tail hs h1),
      utf8_head_not_cont (utf8_ascii_tail ht h1)]
  · rw [utf8_second_cont hs (by omega), utf8_second_cont ht (by omega)]
  · rw [utf8_second_cont hs (by omega), utf8_second_cont ht (by omega)]
  · rw [utf8_second_cont hs (by omega), utf8_second_cont ht (by omega)]

/-- Whether the byte two positions past a fixed three-byte prefix is a
continuation byte is determined by that prefix. -/
theorem utf8_cont_at2 {b1 b2 b3 b3' : Nat} {r r' : List Nat}
    (hs : utf8Valid (b1 :: b2 :: b3 :: r) = true)
    (ht : utf8Valid (b1 :: b2 :: b3' :: r') = true) :
    isCont b3 = isCont b3' := by
  rcases utf8_head_class hs with h1 | h1 | h1 | h1
  · exact utf8_cont_at1 (utf8_ascii_tail hs h1) (utf8_ascii_tail ht h1)
  · have h2 := (utf8_two_byte hs h1.1 h1.2).2
    have h3 := (utf8_two_byte ht h1.1 h1.2).2
    rw [utf8_head_not_cont h2, utf8_head_not_cont h3]
  · rw [utf8_third_cont hs (by omega), utf8_third_cont ht (by omega)]
  · have h2 : isCont b3 = true := by
      rcases r with _ | ⟨r0, rr⟩
      · exact absurd hs (fun hc => utf8_four_short3 hc h1.1 h1.2)
      · exact (utf8_four_byte hs h1.1 h1.2).2.1
    have h3 : isCont b3' = true := by
      rcases r' with _ | ⟨r0, rr⟩
      · exact absurd ht (fun hc => utf8_four_short3 hc h1.1 h1.2)
      · exact (utf8_four_byte ht h1.1 h1.2).2.1
    rw [h2, h3]

/-- Whether byte 3 of a valid UTF-8 string is a continuation byte is fully
determined by bytes 0 through 2. -/
theorem utf8_cont_at3 {b0 b1 b2 b3 b3' : Nat} {r r' : List Nat}
    (hs : utf8Valid (b0 :: b1 :: b2 :: b3 :: r) = true)
    (ht : utf8Valid (b0 :: b1 :: b2 :: b3' :: r') = true) :
    isCont b3 = isCont b3' := by
  rcases utf8_head_class hs with h1 | h1 | h1 | h1
  · exact utf8_cont_at2 (utf8_ascii_tail hs h1) (utf8_ascii_tail ht h1)
  · exact utf8_cont_at1 (utf8_two_byte hs h1.1 h1.2).2 (utf8_two_byte ht h1.1 h1.2).2
  · have h2 := (utf8_three_byte hs h1.1 h1.2).2.2
    have h3 := (utf8_three_byte ht h1.1 h1.2).2.2
    rw [utf8_head_not_cont h2, utf8_head_not_cont h3]
  · rw [(utf8_four_byte hs h1.1 h1.2).2.2.1, (utf8_four_byte ht h1.1 h1.2).2.2.1]

/-- `tryFoldDigits` on an all-digit list returns the running sum, wrapped
modulo `2^32` as the `u32` accumulator does. -/
theorem tryFoldDigits_ok (l : List Nat) :
    ∀ a : Nat, a < 2 ^ 32 → (∀ b ∈ l, (toDigit b).isSome) →
      tryFoldDigits a l = .ok ((a + (l.map fun b => b - 48).sum) % 2 ^ 32) := by
  induction l with
  | nil =>
    intro a ha _
    simp only [tryFoldDigits, List.map_nil, List.sum_nil, Nat.add_zero]
    rw [Nat.mod_eq_of_lt ha]
  | cons x rest ih =>
    intro a ha hall
    have hx : (toDigit x).isSome := hall x (by simp)
    have hxd : toDigit x = some (x - 48) := by
      unfold toDigit at hx ⊢
      split_ifs at hx ⊢ with hc
      · rfl
      · simp at hx
    simp only [tryFoldDigits, hxd, List.map_cons, List.sum_cons]
    rw [ih ((a + (x - 48)) % 2 ^ 32) (Nat.mod_lt _ (by norm_num))
      (fun b hb => hall b (by simp [hb]))]
    rw [Nat.mod_add_mod, Nat.add_assoc]

/-- An all-digit list has digit sum at most `9` per byte. -/
theorem digit_sum_le (l : List Nat) (h : ∀ b ∈ l, (toDigit b).isSome) :
    (l.map fun b => b - 48).sum ≤ 9 * l.length := by
  induction l with
  | nil => simp
  | cons x rest ih =>
    have hx : (toDigit x).isSome := h x (by simp)
    have hx9 : x - 48 ≤ 9 := by
      unfold toDigit at hx
      split_ifs at hx with hc
      · omega
      · simp at hx
    simp only [List.map_cons, List.sum_cons, List.length_cons]
    have hr := ih (fun b hb => h b (by simp [hb]))
    omega

/-- `tryFoldDigits` fails with `ExpectedDigit` as soon as the list contains a
non-digit byte. -/
theorem tryFoldDigits_err (l : List Nat) :
    ∀ a : Nat, (∃ b ∈ l, toDigit b = none) →
      tryFoldDigits a l = .error .ExpectedDigit := by
  induction l with
  | nil => intro a h; simp at h
  | cons x rest ih =>
    intro a h
    rcases hx : toDigit x with _ | d
    · simp only [tryFoldDigits, hx]
    · have hr : ∃ b ∈ rest, toDigit b = none := by
        rcases h with ⟨b, hb, hbn⟩
        rcases List.mem_cons.mp hb with rfl | hbr
        · rw [hx] at hbn; exact absurd hbn (by simp)
        · exact ⟨b, hbr, hbn⟩
      simp only [tryFoldDigits, hx]
      exact ih ((a + d) % 2 ^ 32) hr

theorem exists_none_of_not_all {l : List Nat} (h : ¬ ∀ b ∈ l, (toDigit b).isSome) :
    ∃ b ∈ l, toDigit b = none := by
  by_contra hc
  apply h
  intro b hb
  rcases hx : toDigit b with _ | d
  · exact absurd ⟨b, hb, hx⟩ hc
  · simp

/-- On all-digit input, `mod7` returns whether the wrapped digit sum is a
multiple of 7. -/
theorem mod7_all_digits {l : List Nat} (h : ∀ b ∈ l, (toDigit b).isSome) :
    mod7 l = .ok (((l.map fun b => b - 48).sum % 2 ^ 32) % 7 == 0) := by
  unfold mod7
  rw [tryFoldDigits_ok l 0 (by norm_num) h]
  simp

/-- On input containing a non-digit byte, `mod7` fails with `ExpectedDigit`. -/
theorem mod7_err {l : List Nat} (h : ∃ b ∈ l, toDigit b = none) :
    mod7 l = .error WKVError.ExpectedDigit := by
  unfold mod7
  rw [tryFoldDigits_err l 0 h]

theorem mod7_error_eq {l : List Nat} {e : WKVError} (h : mod7 l = .error e) :
    e = WKVError.ExpectedDigit := by
  by_cases hall : ∀ b ∈ l, (toDigit b).isSome
  · rw [mod7_all_digits hall] at h
    exact absurd h (by simp)
  · have := (mod7_err (exists_none_of_not_all hall)).symm.trans h
    exact (Except.error.inj this).symm

/-- The three possible outcomes of the checksum stage. -/
theorem mod7Verdict_cases (l : List Nat) :
    mod7Verdict l = .ok ⟨KeyType.Windows95⟩ ∨ mod7Verdict l = .error WKVError.BadMod7
    ∨ mod7Verdict l = .error WKVError.ExpectedDigit := by
  unfold mod7Verdict
  by_cases hall : ∀ b ∈ l, (toDigit b).isSome
  · rw [mod7_all_digits hall]
    cases hbe : (((l.map fun b => b - 48).sum % 2 ^ 32) % 7 == 0)
    · right; left; rfl
    · left; rfl
  · rw [mod7_err (exists_none_of_not_all hall)]
    right; right; rfl

theorem mod7Verdict_ne_badaccess (l : List Nat) :
    mod7Verdict l ≠ .error WKVError.BadAccess := by
  rcases mod7Verdict_cases l with h | h | h <;> simp [h]

theorem mod7Verdict_ok {l : List Nat} {k : Key} (h : mod7Verdict l = .ok k) :
    k = ⟨KeyType.Windows95⟩ := by
  rcases mod7Verdict_cases l with hc | hc | hc <;> rw [hc] at h
  · exact (Except.ok.inj h).symm
  · exact absurd h (by simp)
  · exact absurd h (by simp)

/-- On all-digit input whose sum stays inside the `u32` accumulator, the
checksum stage succeeds exactly on multiples of 7. -/
theorem mod7Verdict_digits {l : List Nat} (h : ∀ b ∈ l, (toDigit b).isSome)
    (hlt : (l.map fun b => b - 48).sum < 2 ^ 32) :
    mod7Verdict l = if (l.map fun b => b - 48).sum % 7 = 0
      then .ok ⟨KeyType.Windows95⟩ else .error WKVError.BadMod7 := by
  unfold mod7Verdict
  rw [mod7_all_digits h, Nat.mod_eq_of_lt hlt]
  by_cases h7 : (l.map fun b => b - 48).sum % 7 = 0
  · rw [beq_iff_eq.mpr h7, if_pos h7]
  · rw [beq_eq_false_iff_ne.mpr h7, if_neg h7]

/-- Position 3 of a string with at least four bytes is a boundary exactly
when byte 3 is not a continuation byte. -/
theorem isCharBoundary_cons3 {b0 b1 b2 b3 : Nat} {r : List Nat} :
    isCharBoundary (b0 :: b1 :: b2 :: b3 :: r) 3 = !(isCont b3) := by
  rw [isCharBoundary, if_neg (by omega : ¬ (3 : Nat) = 0)]
  simp

/-- `str::get(0..=2)` on a string of length at least 4 whose byte 3 is a
character boundary: the first three bytes. -/
theorem strGet03_eq {b0 b1 b2 b3 : Nat} {r : List Nat} (hb : isCont b3 = false) :
    strGet (b0 :: b1 :: b2 :: b3 :: r) 0 3 = some [b0, b1, b2] := by
  unfold strGet
  rw [if_pos ⟨by omega, rfl, by rw [isCharBoundary_cons3, hb]; rfl⟩]
  rfl

/-- `str::get(0..=2)` fails when byte 3 is a continuation byte. -/
theorem strGet03_none {b0 b1 b2 b3 : Nat} {r : List Nat} (hb : isCont b3 = true) :
    strGet (b0 :: b1 :: b2 :: b3 :: r) 0 3 = none := by
  have hneg : ¬((0 : Nat) ≤ 3 ∧ isCharBoundary (b0 :: b1 :: b2 :: b3 :: r) 0 = true
      ∧ isCharBoundary (b0 :: b1 :: b2 :: b3 :: r) 3 = true) := by
    rintro ⟨-, -, h3⟩
    rw [isCharBoundary_cons3, hb] at h3
    simp at h3
  unfold strGet
  rw [if_neg hneg]

theorem bytesFrom4_eq {b0 b1 b2 b3 : Nat} {r : List Nat} :
    bytesFrom (b0 :: b1 :: b2 :: b3 :: r) 4 = some r := by
  unfold bytesFrom
  rw [if_pos (by simp only [List.length_cons]; omega)]
  rfl

/-- Unfolding of `validate_windows95` on an input of length at least 4 whose
byte 3 is a character boundary. -/
theorem validate_windows95_eq {b0 b1 b2 b3 : Nat} {r : List Nat}
    (hb : isCont b3 = false) :
    validate_windows95 (b0 :: b1 :: b2 :: b3 :: r) =
      if [b0, b1, b2] ∈ forbiddenTriples then .error WKVError.InvalidDigitPosition
      else mod7Verdict r := by
  simp only [validate_windows95, strGet03_eq hb, bytesFrom4_eq]

/-- `validate_windows95` answers `BadAccess` whenever a multibyte character
straddles byte position 3. -/
theorem validate_windows95_badaccess {b0 b1 b2 b3 : Nat} {r : List Nat}
    (hb : isCont b3 = true) :
    validate_windows95 (b0 :: b1 :: b2 :: b3 :: r) = .error WKVError.BadAccess := by
  simp only [validate_windows95, strGet03_none hb]

theorem validate_eq_w95 {s : List Nat} (h : s.length = 11) :
    validate s = validate_windows95 s := by
  unfold validate
  rw [if_neg (by omega), if_pos h]

theorem validate_windows95_only_w95 {s : List Nat} {k : Key}
    (h : validate_windows95 s = .ok k) : k = ⟨KeyType.Windows95⟩ := by
  unfold validate_windows95 at h
  split at h
  · exact absurd h (by simp)
  · split_ifs at h with hf
    split at h
    · exact absurd h (by simp)
    · exact mod7Verdict_ok h

/-- From three leading ASCII bytes of a valid UTF-8 string, byte 3 starts a
character. -/
theorem boundary_of_ascii3 {b0 b1 b2 b3 : Nat} {r : List Nat}
    (hv : utf8Valid (b0 :: b1 :: b2 :: b3 :: r) = true)
    (h0 : b0 ≤ 127) (h1 : b1 ≤ 127) (h2 : b2 ≤ 127) : isCont b3 = false :=
  utf8_head_not_cont (utf8_ascii_tail (utf8_ascii_tail (utf8_ascii_tail hv h0) h1) h2)

/-- The forbidden triples consist of ASCII digits only. -/
theorem forbidden_ascii {b0 b1 b2 : Nat} (h : [b0, b1, b2] ∈ forbiddenTriples) :
    b0 ≤ 127 ∧ b1 ≤ 127 ∧ b2 ≤ 127 := by
  simp only [forbiddenTriples, List.mem_cons, List.cons.injEq, and_true,
    List.not_mem_nil, or_false] at h
  rcases h with h | h | h | h | h | h | h <;> omega

-- Sanity checks mirroring the repository's test suite.
example : validate [] = .error WKVError.TooShort := by decide
example : validate [48, 48, 48, 45, 48, 48, 48, 48, 48, 48, 48]
    = .ok ⟨KeyType.Windows95⟩ := by decide
example : validate [89, 79, 76, 79, 49, 49, 49, 49, 49, 49, 49]
    = .ok ⟨KeyType.Windows95⟩ := by decide
example : validate [55, 53, 55, 45, 50, 53, 55, 51, 49, 53, 53]
    = .ok ⟨KeyType.Windows95⟩ := by decide
example : validate [53, 53, 53, 45, 53, 53, 53, 53, 53, 53, 53]
    = .error WKVError.InvalidDigitPosition := by decide

/-- C1: the spec scenario and the repository's own test `w95_invalid_good_start`
expect `validate "000-5555555"` to be `Err(BadMod7)`; the implementation
instead accepts it, because the digit sum of `5555555` is 35, which is
divisible by 7.  This theorem evaluates the code at the failing input. -/
theorem c1_validate_000_5555555 :
    validate [48, 48, 48, 45, 53, 53, 53, 53, 53, 53, 53] = .ok ⟨KeyType.Windows95⟩
    ∧ validate [48, 48, 48, 45, 53, 53, 53, 53, 53, 53, 53]
        ≠ .error WKVError.BadMod7 := by
  decide

/-- C2 counterexample: the claim fails as stated whichever way "length 11" is
read.  With character count 11, `"é00-0000000"` (prefix not forbidden, chars
4 to 10 all digits, digit sum 0) is rejected as `TooLong`; with byte length
11, `"abé0000000"` (bytes 4 to 10 all digits, digit sum 0) is rejected as
`BadAccess` because `é` straddles byte position 3. -/
theorem c2_checksum_counterexample :
    (charCount [195, 169, 48, 48, 45, 48, 48, 48, 48, 48, 48, 48] = 11
      ∧ utf8Valid [195, 169, 48, 48, 45, 48, 48, 48, 48, 48, 48, 48] = true
      ∧ validate [195, 169, 48, 48, 45, 48, 48, 48, 48, 48, 48, 48]
          = .error WKVError.TooLong)
    ∧ (List.length [97, 98, 195, 169, 48, 48, 48, 48, 48, 48, 48] = 11
      ∧ utf8Valid [97, 98, 195, 169, 48, 48, 48, 48, 48, 48, 48] = true
      ∧ validate [97, 98, 195, 169, 48, 48, 48, 48, 48, 48, 48]
          = .error WKVError.BadAccess) := by
  decide

/-- C2 (amended): for every input of byte length 11 whose byte 3 is a
character boundary, whose first three bytes are not a forbidden triple and
whose bytes 4 to 10 are all ASCII digits, `validate` returns
`Ok(Key{release: Windows95})` when the digit sum is divisible by 7 and
`Err(BadMod7)` otherwise. -/
theorem c2_checksum_amended (s : List Nat) (hlen : s.length = 11)
    (hb : isCharBoundary s 3 = true)
    (hpre : s.take 3 ∉ forbiddenTriples)
    (hdig : ∀ b ∈ s.drop 4, (toDigit b).isSome) :
    validate s = if ((s.drop 4).map fun b => b - 48).sum % 7 = 0
      then .ok ⟨KeyType.Windows95⟩ else .error WKVError.BadMod7 := by
  rw [validate_eq_w95 hlen]
  rcases s with _ | ⟨b0, _ | ⟨b1, _ | ⟨b2, _ | ⟨b3, r⟩⟩⟩⟩ <;> simp at hlen
  have hc : isCont b3 = false := by
    rw [isCharBoundary_cons3] at hb
    simpa using hb
  have hd : ∀ b ∈ r, (toDigit b).isSome := by simpa using hdig
  have hlt : (r.map fun b => b - 48).sum < 2 ^ 32 := by
    have h9 := digit_sum_le r hd
    omega
  rw [validate_windows95_eq hc, if_neg (by simpa using hpre),
    mod7Verdict_digits hd hlt]
  rfl

theorem c2_checksum_amended_witness :
    validate [48, 48, 48, 45, 48, 48, 48, 48, 48, 48, 48] = .ok ⟨KeyType.Windows95⟩ :=
  (c2_checksum_amended [48, 48, 48, 45, 48, 48, 48, 48, 48, 48, 48]
    (by decide) (by decide) (by decide) (by decide)).trans (by decide)

/-- C3: for every valid UTF-8 input of byte length 11, a forbidden
first-three-byte triple yields `InvalidDigitPosition` regardless of the
remaining bytes (the prefix rule runs before the checksum rule), and any
other prefix passes this stage: once byte 3 is a character boundary the
result is the checksum verdict over bytes 4 onward, with no further check on
positions 0 to 2. -/
theorem c3_forbidden_triple (s : List Nat) (hv : utf8Valid s = true)
    (hlen : s.length = 11) :
    (s.take 3 ∈ forbiddenTriples → validate s = .error WKVError.InvalidDigitPosition)
    ∧ (s.take 3 ∉ forbiddenTriples → isCharBoundary s 3 = true →
        validate s = mod7Verdict (s.drop 4)) := by
  rw [validate_eq_w95 hlen]
  rcases s with _ | ⟨b0, _ | ⟨b1, _ | ⟨b2, _ | ⟨b3, r⟩⟩⟩⟩ <;> simp at hlen
  constructor
  · intro hf
    have hf3 : [b0, b1, b2] ∈ forbiddenTriples := by simpa using hf
    obtain ⟨h0, h1, h2⟩ := forbidden_ascii hf3
    rw [validate_windows95_eq (boundary_of_ascii3 hv h0 h1 h2), if_pos hf3]
  · intro hnf hbd
    have hc : isCont b3 = false := by
      rw [isCharBoundary_cons3] at hbd
      simpa using hbd
    rw [validate_windows95_eq hc, if_neg (by simpa using hnf)]
    rfl

theorem c3_forbidden_triple_witness :
    validate [53, 53, 53, 45, 33, 33, 33, 33, 33, 33, 33]
      = .error WKVError.InvalidDigitPosition :=
  (c3_forbidden_triple [53, 53, 53, 45, 33, 33, 33, 33, 33, 33, 33]
    (by decide) (by decide)).1 (by decide)

/-- C4 counterexample: `validate` does not classify by character count.
`"é0-0000000"` has 10 characters, so the claim demands `TooShort`, but its
byte length is 11 and the code accepts it. -/
theorem c4_char_count_counterexample :
    charCount [195, 169, 48, 45, 48, 48, 48, 48, 48, 48, 48] = 10
    ∧ utf8Valid [195, 169, 48, 45, 48, 48, 48, 48, 48, 48, 48] = true
    ∧ validate [195, 169, 48, 45, 48, 48, 48, 48, 48, 48, 48]
        = .ok ⟨KeyType.Windows95⟩ := by
  decide

/-- C4 (amended): `validate` classifies purely by byte count: at most 10
bytes gives `TooShort`, exactly 11 bytes delegates to the Windows-95 format
validator, and more than 11 bytes gives `TooLong`. -/
theorem c4_length_dispatch (s : List Nat) :
    (s.length ≤ 10 → validate s = .error WKVError.TooShort)
    ∧ (s.length = 11 → validate s = validate_windows95 s)
    ∧ (11 < s.length → validate s = .error WKVError.TooLong) := by
  refine ⟨fun h => ?_, fun h => validate_eq_w95 h, fun h => ?_⟩
  · unfold validate
    rw [if_pos h]
  · unfold validate
    rw [if_neg (by omega), if_neg (by omega)]

theorem c4_length_dispatch_witness :
    validate [] = .error WKVError.TooShort :=
  (c4_length_dispatch []).1 (by decide)

/-- C5 counterexample: the claim's divisibility clause fails once the `u32`
accumulator wraps.  On 536870912 copies of the byte `'8'` — every byte a
digit — the digit sum is exactly `2^32`, which is not divisible by 7
(`2^32 mod 7 = 4`), so the claim demands `Ok(false)`; but the accumulator
wraps to 0 and the code returns `Ok(true)`. -/
theorem c5_wrap_counterexample :
    (∀ b ∈ List.replicate 536870912 56, (toDigit b).isSome)
    ∧ ((List.replicate 536870912 56).map fun b => b - 48).sum % 7 ≠ 0
    ∧ mod7 (List.replicate 536870912 56) = .ok true := by
  have hall : ∀ b ∈ List.replicate 536870912 56, (toDigit b).isSome := by
    intro b hb
    rw [List.eq_of_mem_replicate hb]
    decide
  have hsum : ((List.replicate 536870912 56).map fun b => b - 48).sum = 2 ^ 32 := by
    rw [List.map_replicate, List.sum_replicate, smul_eq_mul]
    norm_num
  refine ⟨hall, by rw [hsum]; norm_num, ?_⟩
  rw [mod7_all_digits hall, hsum]
  norm_num

/-- C5 (amended): `mod7` fails with `ExpectedDigit` exactly when some byte of
its input is not a base-10 digit; on all-digit input it returns `Ok` of
whether the digit sum, as wrapped modulo `2^32` by the `u32` accumulator, is
divisible by 7 — which coincides with plain digit-sum divisibility whenever
the sum is below `2^32` — and the false case is a boolean, never an error. -/
theorem c5_mod7_contract (l : List Nat) :
    (mod7 l = .error WKVError.ExpectedDigit ↔ ¬ ∀ b ∈ l, (toDigit b).isSome)
    ∧ ((∀ b ∈ l, (toDigit b).isSome) →
        mod7 l = .ok (((l.map fun b => b - 48).sum % 2 ^ 32) % 7 == 0))
    ∧ ((∀ b ∈ l, (toDigit b).isSome) → (l.map fun b => b - 48).sum < 2 ^ 32 →
        mod7 l = .ok ((l.map fun b => b - 48).sum % 7 == 0)) := by
  refine ⟨⟨fun h hall => ?_, fun h => mod7_err (exists_none_of_not_all h)⟩,
    fun h => mod7_all_digits h, fun h hlt => ?_⟩
  · rw [mod7_all_digits hall] at h
    exact absurd h (by simp)
  · rw [mod7_all_digits h, Nat.mod_eq_of_lt hlt]

theorem c5_mod7_contract_witness :
    mod7 [53, 48] = .ok false :=
  ((c5_mod7_contract [53, 48]).2.2 (by decide) (by decide)).trans (by decide)

/-- C6 counterexample: the character at position 3 can affect the outcome.
Replacing the `-` of `"000-0000000"` by the two-byte character `é` (both
strings have 11 characters) turns `Ok` into `TooLong`; and for two 11-byte
inputs `"€a50\x30\x30\x30\x30\x30"` and `"€a5A\x30\x30\x30\x30\x30"` that
differ only in the character at position 3, the results are `BadMod7` and
`ExpectedDigit`. -/
theorem c6_position3_counterexample :
    (charCount [48, 48, 48, 45, 48, 48, 48, 48, 48, 48, 48] = 11
      ∧ charCount [48, 48, 48, 195, 169, 48, 48, 48, 48, 48, 48, 48] = 11
      ∧ utf8Valid [48, 48, 48, 195, 169, 48, 48, 48, 48, 48, 48, 48] = true
      ∧ [48, 48, 48, 45, 48, 48, 48, 48, 48, 48, 48].take 3
          = [48, 48, 48, 195, 169, 48, 48, 48, 48, 48, 48, 48].take 3
      ∧ [48, 48, 48, 45, 48, 48, 48, 48, 48, 48, 48].drop 4
          = [48, 48, 48, 195, 169, 48, 48, 48, 48, 48, 48, 48].drop 5
      ∧ validate [48, 48, 48, 45, 48, 48, 48, 48, 48, 48, 48] = .ok ⟨KeyType.Windows95⟩
      ∧ validate [48, 48, 48, 195, 169, 48, 48, 48, 48, 48, 48, 48]
          = .error WKVError.TooLong)
    ∧ (List.length [226, 130, 172, 97, 53, 48, 48, 48, 48, 48, 48] = 11
      ∧ List.length [226, 130, 172, 97, 53, 65, 48, 48, 48, 48, 48] = 11
      ∧ utf8Valid [226, 130, 172, 97, 53, 48, 48, 48, 48, 48, 48] = true
      ∧ utf8Valid [226, 130, 172, 97, 53, 65, 48, 48, 48, 48, 48] = true
      ∧ [226, 130, 172, 97, 53, 48, 48, 48, 48, 48, 48].take 5
          = [226, 130, 172, 97, 53, 65, 48, 48, 48, 48, 48].take 5
      ∧ [226, 130, 172, 97, 53, 48, 48, 48, 48, 48, 48].drop 6
          = [226, 130, 172, 97, 53, 65, 48, 48, 48, 48, 48].drop 6
      ∧ validate [226, 130, 172, 97, 53, 48, 48, 48, 48, 48, 48]
          = .error WKVError.BadMod7
      ∧ validate [226, 130, 172, 97, 53, 65, 48, 48, 48, 48, 48]
          = .error WKVError.ExpectedDigit) := by
  decide

/-- C6 (amended): byte 3 is never inspected.  Any two valid UTF-8 inputs of
byte length 11 that agree on bytes 0 to 2 and on bytes 4 to 10 — that is,
differ at most in the byte at position 3 — validate to the same result. -/
theorem c6_byte3_irrelevant (s t : List Nat)
    (hs : utf8Valid s = true) (ht : utf8Valid t = true)
    (hsl : s.length = 11) (htl : t.length = 11)
    (hpre : s.take 3 = t.take 3) (hsuf : s.drop 4 = t.drop 4) :
    validate s = validate t := by
  rw [validate_eq_w95 hsl, validate_eq_w95 htl]
  rcases s with _ | ⟨a0, _ | ⟨a1, _ | ⟨a2, _ | ⟨a3, sr⟩⟩⟩⟩ <;> simp at hsl
  rcases t with _ | ⟨b0, _ | ⟨b1, _ | ⟨b2, _ | ⟨b3, tr⟩⟩⟩⟩ <;> simp at htl
  obtain ⟨rfl, rfl, rfl⟩ : a0 = b0 ∧ a1 = b1 ∧ a2 = b2 := by
    simpa using hpre
  obtain rfl : sr = tr := by simpa using hsuf
  have hcont : isCont a3 = isCont b3 := utf8_cont_at3 hs ht
  cases hc : isCont a3
  · rw [validate_windows95_eq hc, validate_windows95_eq (hcont.symm.trans hc)]
  · rw [validate_windows95_badaccess hc, validate_windows95_badaccess (hcont.symm.trans hc)]

theorem c6_byte3_irrelevant_witness :
    validate [48, 48, 48, 45, 48, 48, 48, 48, 48, 48, 48]
      = validate [48, 48, 48, 48, 48, 48, 48, 48, 48, 48, 48] :=
  c6_byte3_irrelevant _ _ (by decide) (by decide) (by decide) (by decide)
    (by decide) (by decide)

/-- C7 counterexample: `validate` itself can return `BadAccess` without any
caller bypassing the dispatcher: `"abé0000000"` is a genuine 11-byte Rust
string, yet slicing its prefix fails on the char boundary inside `é`. -/
theorem c7_badaccess_counterexample :
    utf8Valid [97, 98, 195, 169, 48, 48, 48, 48, 48, 48, 48] = true
    ∧ validate [97, 98, 195, 169, 48, 48, 48, 48, 48, 48, 48]
        = .error WKVError.BadAccess := by
  decide

/-- C7 (amended): `validate` never returns `BadAccess` unless a multibyte
character straddles byte position 3 of an 11-byte input; in particular it
never does so on inputs where position 3 is a character boundary (such as any
all-ASCII input). -/
theorem c7_badaccess_amended (s : List Nat)
    (h : s.length = 11 → isCharBoundary s 3 = true) :
    validate s ≠ .error WKVError.BadAccess := by
  unfold validate
  split_ifs with h1 h2
  · simp
  · have hb := h h2
    rcases s with _ | ⟨b0, _ | ⟨b1, _ | ⟨b2, _ | ⟨b3, r⟩⟩⟩⟩ <;> simp at h2
    have hc : isCont b3 = false := by
      rw [isCharBoundary_cons3] at hb
      simpa using hb
    rw [validate_windows95_eq hc]
    split_ifs with hf
    · simp
    · exact mod7Verdict_ne_badaccess r
  · simp

theorem c7_badaccess_amended_witness :
    validate [48, 48, 48, 45, 48, 48, 48, 48, 48, 48, 48]
      ≠ .error WKVError.BadAccess :=
  c7_badaccess_amended [48, 48, 48, 45, 48, 48, 48, 48, 48, 48, 48]
    (fun _ => by decide)

/-- C8: `validate_windows95` guards its own slicing on inputs of any length.
If extracting the three-byte prefix fails (input shorter than 3 bytes, or
byte 3 inside a character), the result is `BadAccess`; if the prefix succeeds
on a 3-byte input and is not forbidden, the checksum-region extraction fails
and the result is again `BadAccess`. -/
theorem c8_bounds_guarded (s : List Nat) :
    (strGet s 0 3 = none → validate_windows95 s = .error WKVError.BadAccess)
    ∧ (s.length = 3 → s.take 3 ∉ forbiddenTriples →
        validate_windows95 s = .error WKVError.BadAccess) := by
  constructor
  · intro h
    unfold validate_windows95
    rw [h]
  · intro h3 hnf
    have hbd : isCharBoundary s 3 = true := by
      rw [isCharBoundary, if_neg (by omega : ¬ (3 : Nat) = 0)]
      have hnone : s[3]? = none := by
        rw [List.getElem?_eq_none]
        omega
      rw [hnone]
      simp [h3]
    have hg : strGet s 0 3 = some ((s.take 3).drop 0) := by
      unfold strGet
      rw [if_pos ⟨by omega, rfl, hbd⟩]
    have hbf : bytesFrom s 4 = none := by
      unfold bytesFrom
      rw [if_neg (by omega)]
    simp only [validate_windows95, hg, List.drop_zero]
    rw [if_neg hnf, hbf]

theorem c8_bounds_guarded_witness :
    validate_windows95 [48] = .error WKVError.BadAccess :=
  (c8_bounds_guarded [48]).1 (by decide)

/-- C9: every successful validation, through `validate` or directly through
`validate_windows95`, carries the fully implemented `Windows95` release; the
placeholder variants are never produced. -/
theorem c9_success_is_windows95 (s : List Nat) (k : Key)
    (h : validate s = .ok k ∨ validate_windows95 s = .ok k) :
    k.release = KeyType.Windows95 := by
  have hk : k = ⟨KeyType.Windows95⟩ := by
    rcases h with h | h
    · unfold validate at h
      split_ifs at h
      exact validate_windows95_only_w95 h
    · exact validate_windows95_only_w95 h
  rw [hk]

theorem c9_success_is_windows95_witness :
    (⟨KeyType.Windows95⟩ : Key).release = KeyType.Windows95 :=
  c9_success_is_windows95 [48, 48, 48, 45, 48, 48, 48, 48, 48, 48, 48]
    ⟨KeyType.Windows95⟩ (Or.inl (by decide))

/-- C10 counterexample: a 4-byte input whose first three bytes are not a
forbidden triple can still fail: in `"a€"` the three-byte `€` straddles byte
position 3, so the prefix slice fails with `BadAccess` instead of the claimed
`Ok`. -/
theorem c10_length4_counterexample :
    [97, 226, 130, 172].take 3 ∉ forbiddenTriples
    ∧ utf8Valid [97, 226, 130, 172] = true
    ∧ List.length [97, 226, 130, 172] = 4
    ∧ validate_windows95 [97, 226, 130, 172] = .error WKVError.BadAccess := by
  decide

/-- C10 (amended): called directly on a 4-byte input whose byte 3 is a
character boundary and whose first three bytes are not a forbidden triple,
`validate_windows95` succeeds: the checksum region is empty and `mod7` of the
empty sequence is `Ok(true)` (the empty sum 0 is divisible by 7). -/
theorem c10_length4_amended (s : List Nat) (hlen : s.length = 4)
    (hb : isCharBoundary s 3 = true)
    (hpre : s.take 3 ∉ forbiddenTriples) :
    validate_windows95 s = .ok ⟨KeyType.Windows95⟩ ∧ mod7 [] = .ok true := by
  refine ⟨?_, by decide⟩
  rcases s with _ | ⟨b0, _ | ⟨b1, _ | ⟨b2, _ | ⟨b3, r⟩⟩⟩⟩ <;> simp at hlen
  obtain rfl : r = [] := by
    cases r
    · rfl
    · simp at hlen
  have hc : isCont b3 = false := by
    rw [isCharBoundary_cons3] at hb
    simpa using hb
  rw [validate_windows95_eq hc, if_neg (by simpa using hpre)]
  decide

theorem c10_length4_amended_witness :
    validate_windows95 [48, 48, 48, 45] = .ok ⟨KeyType.Windows95⟩
    ∧ mod7 [] = .ok true :=
  c10_length4_amended [48, 48, 48, 45] (by decide) (by decide) (by decide)
